import Mathlib

/-!
Verification of `detect-desktop-environment` (src/lib.rs).

The Rust crate classifies the current desktop environment. We embed the
enum `DesktopEnvironment`, the predicates `gtk` and `qt`, the parsers
`from_freedesktop`, `from_xdg_name` and `from_xdg_current_desktop`, and
the platform dispatch `detect_impl` as executable Lean definitions.
-/

/-- The `DesktopEnvironment` enum from src/lib.rs, constructors in source order. -/
inductive DesktopEnvironment
  | Cinnamon
  | Cosmic
  | Dde
  | Ede
  | Endless
  | Enlightenment
  | Gnome
  | Hyprland
  | Kde
  | Lxde
  | Lxqt
  | MacOs
  | Mate
  | Old
  | Pantheon
  | Razor
  | Rox
  | Sway
  | Tde
  | Unity
  | Windows
  | Xfce
deriving DecidableEq, Repr

namespace DesktopEnvironment

/-- `gtk`: membership in the GTK-based family, embedding the `matches!` of src/lib.rs. -/
def gtk : DesktopEnvironment → Bool
  | Cinnamon | Cosmic | Dde | Gnome | Lxde | Mate | Pantheon | Unity | Xfce => true
  | _ => false

/-- `qt`: membership in the Qt-based family, embedding the `matches!` of src/lib.rs. -/
def qt : DesktopEnvironment → Bool
  | Kde | Lxqt | Razor | Tde => true
  | _ => false

/-- `from_freedesktop`: the strict case-sensitive Freedesktop table of src/lib.rs,
entries in source order. -/
def from_freedesktop (name : String) : Option DesktopEnvironment :=
  if name = "GNOME" then some Gnome
  else if name = "GNOME-Classic" then some Gnome
  else if name = "GNOME-Flashback" then some Gnome
  else if name = "KDE" then some Kde
  else if name = "LXDE" then some Lxde
  else if name = "LXQt" then some Lxqt
  else if name = "MATE" then some Mate
  else if name = "Razor" then some Razor
  else if name = "ROX" then some Rox
  else if name = "TDE" then some Tde
  else if name = "Unity" then some Unity
  else if name = "XFCE" then some Xfce
  else if name = "EDE" then some Ede
  else if name = "Cinnamon" then some Cinnamon
  else if name = "Pantheon" then some Pantheon
  else if name = "DDE" then some Dde
  else if name = "Endless" then some Endless
  else if name = "Old" then some Old
  else none

/-- `from_xdg_name`: first the Freedesktop table, then the extra unregistered
names, as in src/lib.rs. -/
def from_xdg_name (name : String) : Option DesktopEnvironment :=
  match from_freedesktop name with
  | some de => some de
  | none =>
    if name = "ENLIGHTENMENT" then some Enlightenment
    else if name = "Hyprland" then some Hyprland
    else if name = "SWAY" then some Sway
    else if name = "X-Cinnamon" then some Cinnamon
    else none

/-- Splitting a character list on ':', embedding Rust's `str::split(':')`:
the empty string yields one empty token, and separators at the ends yield
empty tokens. -/
def splitColon : List Char → List (List Char)
  | [] => [[]]
  | c :: rest =>
    if c = ':' then [] :: splitColon rest
    else
      match splitColon rest with
      | [] => [[c]]
      | tok :: toks => (c :: tok) :: toks

/-- The colon-separated tokens of a string, as strings. -/
def xdgParts (s : String) : List String :=
  (splitColon s.data).map List.asString

/-- The scanning loop of `from_xdg_current_desktop` in src/lib.rs: walk the
tokens keeping the `resolved` slot; unclassified tokens are skipped, the first
classified token is stored, a later token classifying differently returns
`none` at once. -/
def fromXdgList : List String → Option DesktopEnvironment → Option DesktopEnvironment
  | [], resolved => resolved
  | part :: rest, resolved =>
    match from_xdg_name part with
    | none => fromXdgList rest resolved
    | some de =>
      match resolved with
      | none => fromXdgList rest (some de)
      | some prev => if de = prev then fromXdgList rest (some prev) else none

/-- `from_xdg_current_desktop` from src/lib.rs: split on ':' and scan. -/
def from_xdg_current_desktop (s : String) : Option DesktopEnvironment :=
  fromXdgList (xdgParts s) none

/-- The compile-time platform choice of src/lib.rs (`target_os`), modelled as data. -/
inductive Platform
  | macos
  | windows
  | other
deriving DecidableEq

/-- `detect_impl` from src/lib.rs: the three `cfg`-selected bodies. On `other`
the environment variable `XDG_CURRENT_DESKTOP` is passed in as an `Option`. -/
def detect_impl (platform : Platform) (xdgCurrentDesktop : Option String) :
    Option DesktopEnvironment :=
  match platform with
  | Platform.macos => some MacOs
  | Platform.windows => some Windows
  | Platform.other => xdgCurrentDesktop.bind from_xdg_current_desktop

/-- `detect` from src/lib.rs simply calls `detect_impl`. -/
def detect (platform : Platform) (xdgCurrentDesktop : Option String) :
    Option DesktopEnvironment :=
  detect_impl platform xdgCurrentDesktop

end DesktopEnvironment

namespace DesktopEnvironment

/-- Once the `resolved` slot is filled, the loop can only return that value or `none`. -/
theorem fromXdgList_state_eq (l : List String) (p q : DesktopEnvironment)
    (h : fromXdgList l (some p) = some q) : q = p := by
  induction l with
  | nil => simpa [fromXdgList] using h.symm
  | cons hd tl ih =>
    cases hf : from_xdg_name hd with
    | none =>
      simp only [fromXdgList, hf] at h
      exact ih h
    | some de =>
      simp only [fromXdgList, hf] at h
      by_cases hde : de = p
      · rw [if_pos hde] at h
        exact ih h
      · rw [if_neg hde] at h
        exact absurd h (by simp)

/-- If every classified token agrees with the stored value, the loop keeps it. -/
theorem fromXdgList_all_eq (l : List String) (p : DesktopEnvironment)
    (h : ∀ d ∈ l.filterMap from_xdg_name, d = p) : fromXdgList l (some p) = some p := by
  induction l with
  | nil => rfl
  | cons hd tl ih =>
    cases hf : from_xdg_name hd with
    | none =>
      simp only [fromXdgList, hf]
      exact ih (by simpa [List.filterMap_cons, hf] using h)
    | some de =>
      have hde : de = p := h de (by simp [List.filterMap_cons, hf])
      simp only [fromXdgList, hf]
      rw [if_pos hde]
      exact ih (fun d hd2 => h d (by simp [List.filterMap_cons, hf, hd2]))

/-- A classified token disagreeing with the stored value forces `none`. -/
theorem fromXdgList_conflict_state (l : List String) (p d : DesktopEnvironment)
    (hd : d ∈ l.filterMap from_xdg_name) (hne : d ≠ p) :
    fromXdgList l (some p) = none := by
  induction l with
  | nil => simp [List.filterMap_nil] at hd
  | cons hd0 tl ih =>
    cases hf : from_xdg_name hd0 with
    | none =>
      simp only [fromXdgList, hf]
      exact ih (by simpa [List.filterMap_cons, hf] using hd)
    | some de =>
      simp only [fromXdgList, hf]
      by_cases hde : de = p
      · rw [if_pos hde]
        rcases (by simpa [List.filterMap_cons, hf] using hd : d = de ∨ d ∈ tl.filterMap from_xdg_name) with h1 | h1
        · exact absurd (h1.trans hde) hne
        · exact ih h1
      · rw [if_neg hde]

/-- The loop starting empty returns only values classified from some token. -/
theorem fromXdgList_none_mem (l : List String) (de : DesktopEnvironment)
    (h : fromXdgList l none = some de) : de ∈ l.filterMap from_xdg_name := by
  induction l with
  | nil => simp [fromXdgList] at h
  | cons hd tl ih =>
    cases hf : from_xdg_name hd with
    | none =>
      simp only [fromXdgList, hf] at h
      simpa [List.filterMap_cons, hf] using ih h
    | some d0 =>
      simp only [fromXdgList, hf] at h
      have : de = d0 := fromXdgList_state_eq tl d0 de h
      simp [List.filterMap_cons, hf, this]

/-- If no token classifies, the loop returns its initial state unchanged. -/
theorem fromXdgList_no_classified (l : List String)
    (h : l.filterMap from_xdg_name = []) (r : Option DesktopEnvironment) :
    fromXdgList l r = r := by
  induction l with
  | nil => rfl
  | cons hd tl ih =>
    cases hf : from_xdg_name hd with
    | none =>
      simp only [fromXdgList, hf]
      exact ih (by simpa [List.filterMap_cons, hf] using h)
    | some d0 =>
      exact absurd h (by simp [List.filterMap_cons, hf])

/-- An unclassified token anywhere in the list never affects the loop. -/
theorem fromXdgList_skip (l1 l2 : List String) (t : String)
    (ht : from_xdg_name t = none) (r : Option DesktopEnvironment) :
    fromXdgList (l1 ++ t :: l2) r = fromXdgList (l1 ++ l2) r := by
  induction l1 generalizing r with
  | nil => simp [fromXdgList, ht]
  | cons hd tl ih =>
    cases hf : from_xdg_name hd with
    | none =>
      simp only [List.cons_append, fromXdgList, hf]
      exact ih r
    | some de =>
      cases r with
      | none =>
        simp only [List.cons_append, fromXdgList, hf]
        exact ih (some de)
      | some p =>
        simp only [List.cons_append, fromXdgList, hf]
        by_cases hde : de = p
        · rw [if_pos hde, if_pos hde]
          exact ih (some p)
        · rw [if_neg hde, if_neg hde]

/-- A filled slot that survives the loop means every classified token agreed with it. -/
theorem fromXdgList_some_all (l : List String) (p q : DesktopEnvironment)
    (h : fromXdgList l (some p) = some q) :
    ∀ d ∈ l.filterMap from_xdg_name, d = p := by
  intro d hd
  by_contra hne
  rw [fromXdgList_conflict_state l p d hd hne] at h
  exact absurd h (by simp)

/-- A successful scan from the empty slot means every classified token agreed
with the result. -/
theorem fromXdgList_none_all_eq (l : List String) (de : DesktopEnvironment)
    (h : fromXdgList l none = some de) :
    ∀ d ∈ l.filterMap from_xdg_name, d = de := by
  induction l with
  | nil => simp [List.filterMap_nil]
  | cons hd tl ih =>
    cases hf : from_xdg_name hd with
    | none =>
      simp only [fromXdgList, hf] at h
      intro d hdm
      exact ih h d (by simpa [List.filterMap_cons, hf] using hdm)
    | some d0 =>
      simp only [fromXdgList, hf] at h
      have hde : de = d0 := fromXdgList_state_eq tl d0 de h
      intro d hdm
      rcases (by simpa [List.filterMap_cons, hf] using hdm :
          d = d0 ∨ d ∈ tl.filterMap from_xdg_name) with h1 | h1
      · rw [h1, hde]
      · rw [fromXdgList_some_all tl d0 de h d h1, hde]

/-- If at least one token classifies and all classified tokens agree, the scan
returns that common value. -/
theorem fromXdgList_none_resolves (l : List String) (de : DesktopEnvironment)
    (hmem : de ∈ l.filterMap from_xdg_name)
    (hall : ∀ d ∈ l.filterMap from_xdg_name, d = de) :
    fromXdgList l none = some de := by
  induction l with
  | nil => simp [List.filterMap_nil] at hmem
  | cons hd tl ih =>
    cases hf : from_xdg_name hd with
    | none =>
      simp only [fromXdgList, hf]
      exact ih (by simpa [List.filterMap_cons, hf] using hmem)
        (fun d hd2 => hall d (by simpa [List.filterMap_cons, hf] using hd2))
    | some d0 =>
      simp only [fromXdgList, hf]
      have hd0 : d0 = de := hall d0 (by simp [List.filterMap_cons, hf])
      rw [hd0]
      exact fromXdgList_all_eq tl de
        (fun d hd2 => hall d (by simp [List.filterMap_cons, hf, hd2]))

/-- The registered Freedesktop names, in the order of the table in src/lib.rs. -/
def freedesktopNames : List String :=
  ["GNOME", "GNOME-Classic", "GNOME-Flashback", "KDE", "LXDE", "LXQt", "MATE",
   "Razor", "ROX", "TDE", "Unity", "XFCE", "EDE", "Cinnamon", "Pantheon",
   "DDE", "Endless", "Old"]

/-- `from_freedesktop` rejects every name outside its table. -/
theorem from_freedesktop_not_in_table (name : String)
    (h : name ∉ freedesktopNames) : from_freedesktop name = none := by
  simp only [freedesktopNames, List.mem_cons, List.not_mem_nil, or_false, not_or] at h
  obtain ⟨h1, h2, h3, h4, h5, h6, h7, h8, h9, h10, h11, h12, h13, h14, h15, h16, h17, h18⟩ := h
  unfold from_freedesktop
  rw [if_neg h1, if_neg h2, if_neg h3, if_neg h4, if_neg h5, if_neg h6, if_neg h7, if_neg h8,
    if_neg h9, if_neg h10, if_neg h11, if_neg h12, if_neg h13, if_neg h14, if_neg h15,
    if_neg h16, if_neg h17, if_neg h18]

/-- The Freedesktop table never yields the `MacOs` or `Windows` variants. -/
theorem from_freedesktop_ne_platform (name : String) (de : DesktopEnvironment)
    (h : from_freedesktop name = some de) : de ≠ MacOs ∧ de ≠ Windows := by
  by_cases hmem : name ∈ freedesktopNames
  · simp only [freedesktopNames, List.mem_cons, List.not_mem_nil, or_false] at hmem
    rcases hmem with e|e|e|e|e|e|e|e|e|e|e|e|e|e|e|e|e|e <;> subst e <;>
      revert h <;> cases de <;> decide
  · rw [from_freedesktop_not_in_table name hmem] at h
    exact Option.noConfusion h

/-- `from_xdg_name` never yields the `MacOs` or `Windows` variants. -/
theorem from_xdg_name_ne_platform (name : String) (de : DesktopEnvironment)
    (h : from_xdg_name name = some de) : de ≠ MacOs ∧ de ≠ Windows := by
  unfold from_xdg_name at h
  cases hfd : from_freedesktop name with
  | some d0 =>
    rw [hfd] at h
    cases h
    exact from_freedesktop_ne_platform name de hfd
  | none =>
    rw [hfd] at h
    by_cases h1 : name = "ENLIGHTENMENT"
    · rw [if_pos h1] at h
      cases h
      exact ⟨by decide, by decide⟩
    rw [if_neg h1] at h
    by_cases h2 : name = "Hyprland"
    · rw [if_pos h2] at h
      cases h
      exact ⟨by decide, by decide⟩
    rw [if_neg h2] at h
    by_cases h3 : name = "SWAY"
    · rw [if_pos h3] at h
      cases h
      exact ⟨by decide, by decide⟩
    rw [if_neg h3] at h
    by_cases h4 : name = "X-Cinnamon"
    · rw [if_pos h4] at h
      cases h
      exact ⟨by decide, by decide⟩
    rw [if_neg h4] at h
    exact Option.noConfusion h

/-- C1: if two colon-separated tokens of the input classify (via `from_xdg_name`)
to two different desktop environments, `from_xdg_current_desktop` returns `none`;
in particular on "KDE:GNOME". -/
theorem xdg_conflict_returns_none (s : String) (a b : DesktopEnvironment)
    (ha : a ∈ (xdgParts s).filterMap from_xdg_name)
    (hb : b ∈ (xdgParts s).filterMap from_xdg_name)
    (hab : a ≠ b) : from_xdg_current_desktop s = none := by
  unfold from_xdg_current_desktop
  cases hres : fromXdgList (xdgParts s) none with
  | none => rfl
  | some de =>
    have hall := fromXdgList_none_all_eq (xdgParts s) de hres
    exact absurd ((hall a ha).trans (hall b hb).symm) hab

/-- Witness for C1 at the concrete input "KDE:GNOME". -/
theorem xdg_conflict_returns_none_witness :
    from_xdg_current_desktop "KDE:GNOME" = none :=
  xdg_conflict_returns_none "KDE:GNOME" Kde Gnome (by decide) (by decide) (by decide)

/-- C2: tokens that `from_xdg_name` fails to classify are skipped: removing such a
token from the scanned list, whatever the current resolved state, leaves the
loop's result unchanged; in particular "ubuntu:GNOME" parses to `Gnome`. -/
theorem xdg_unknown_tokens_skipped :
    (∀ (l1 l2 : List String) (t : String) (r : Option DesktopEnvironment),
      from_xdg_name t = none → fromXdgList (l1 ++ t :: l2) r = fromXdgList (l1 ++ l2) r) ∧
    from_xdg_current_desktop "ubuntu:GNOME" = some Gnome :=
  ⟨fun l1 l2 t r ht => fromXdgList_skip l1 l2 t ht r, by decide⟩

/-- Witness for C2: skipping the unclassifiable token "ubuntu". -/
theorem xdg_unknown_tokens_skipped_witness :
    from_xdg_name "ubuntu" = none ∧
    fromXdgList ([] ++ "ubuntu" :: ["GNOME"]) none = fromXdgList ([] ++ ["GNOME"]) none :=
  ⟨by decide, xdg_unknown_tokens_skipped.1 [] ["GNOME"] "ubuntu" none (by decide)⟩

/-- C3: when at least one token classifies and all classifiable tokens agree on
the same desktop environment, `from_xdg_current_desktop` returns it; duplicates
are no conflict, in particular "GNOME:GNOME" parses to `Gnome`. -/
theorem xdg_agreeing_tokens_resolve (s : String) (de : DesktopEnvironment)
    (hmem : de ∈ (xdgParts s).filterMap from_xdg_name)
    (hall : ∀ d ∈ (xdgParts s).filterMap from_xdg_name, d = de) :
    from_xdg_current_desktop s = some de := by
  unfold from_xdg_current_desktop
  exact fromXdgList_none_resolves (xdgParts s) de hmem hall

/-- Witness for C3 at the concrete input "GNOME:GNOME". -/
theorem xdg_agreeing_tokens_resolve_witness :
    from_xdg_current_desktop "GNOME:GNOME" = some Gnome :=
  xdg_agreeing_tokens_resolve "GNOME:GNOME" Gnome (by decide) (by decide)

/-- C4: on macOS `detect` always returns `MacOs` and on Windows always `Windows`,
whatever the XDG_CURRENT_DESKTOP variable holds, including when it is absent. -/
theorem detect_platform_fixed (env : Option String) :
    detect Platform.macos env = some MacOs ∧ detect Platform.windows env = some Windows :=
  ⟨rfl, rfl⟩

/-- C5: when no colon-separated token classifies, `from_xdg_current_desktop`
returns `none` (it is a total function, no error is raised); in particular on ""
(one empty token) and on "foo". -/
theorem xdg_no_classified_none :
    (∀ s : String, (xdgParts s).filterMap from_xdg_name = [] →
      from_xdg_current_desktop s = none) ∧
    from_xdg_current_desktop "" = none ∧ from_xdg_current_desktop "foo" = none :=
  ⟨fun s h => fromXdgList_no_classified (xdgParts s) h none, by decide, by decide⟩

/-- Witness for C5 at the empty string, whose single empty token fails to classify. -/
theorem xdg_no_classified_none_witness :
    (xdgParts "").filterMap from_xdg_name = [] ∧ from_xdg_current_desktop "" = none :=
  ⟨by decide, xdg_no_classified_none.1 "" (by decide)⟩

/-- C6: `from_freedesktop` matches its input exactly and case-sensitively against
the fixed table of registered Freedesktop names and returns `none` for any string
outside the table; in particular "kde" is rejected while "KDE" maps to `Kde`. -/
theorem freedesktop_exact_table :
    (∀ name : String, name ∉ freedesktopNames → from_freedesktop name = none) ∧
    from_freedesktop "kde" = none ∧ from_freedesktop "KDE" = some Kde :=
  ⟨from_freedesktop_not_in_table, by decide, by decide⟩

/-- Witness for C6: the lowercase "kde" is outside the table and rejected. -/
theorem freedesktop_exact_table_witness :
    "kde" ∉ freedesktopNames ∧ from_freedesktop "kde" = none :=
  ⟨by decide, freedesktop_exact_table.1 "kde" (by decide)⟩

/-- C7: `from_xdg_name` extends `from_freedesktop`: any name the Freedesktop table
classifies is classified identically by `from_xdg_name`, and strictly more names
succeed, e.g. "SWAY" and "X-Cinnamon". -/
theorem xdg_name_extends_freedesktop :
    (∀ (name : String) (de : DesktopEnvironment),
      from_freedesktop name = some de → from_xdg_name name = some de) ∧
    from_xdg_name "SWAY" = some Sway ∧ from_freedesktop "SWAY" = none ∧
    from_xdg_name "X-Cinnamon" = some Cinnamon := by
  refine ⟨fun name de h => ?_, by decide, by decide, by decide⟩
  unfold from_xdg_name
  rw [h]

/-- Witness for C7: "KDE", classified by the Freedesktop table, is preserved. -/
theorem xdg_name_extends_freedesktop_witness :
    from_xdg_name "KDE" = some Kde :=
  xdg_name_extends_freedesktop.1 "KDE" Kde (by decide)

/-- C8: on a platform other than macOS and Windows, `detect` returns `none` when
XDG_CURRENT_DESKTOP is absent and otherwise returns exactly
`from_xdg_current_desktop` of its value; every failure mode is an absent result,
never an error. -/
theorem detect_other_delegates :
    detect Platform.other none = none ∧
    ∀ v : String, detect Platform.other (some v) = from_xdg_current_desktop v :=
  ⟨rfl, fun _ => rfl⟩

/-- C9: `gtk` is exactly membership in {Cinnamon, Cosmic, Dde, Gnome, Lxde, Mate,
Pantheon, Unity, Xfce} and `qt` is exactly membership in {Kde, Lxqt, Razor, Tde}. -/
theorem gtk_qt_membership (de : DesktopEnvironment) :
    (gtk de = true ↔
      de ∈ [Cinnamon, Cosmic, Dde, Gnome, Lxde, Mate, Pantheon, Unity, Xfce]) ∧
    (qt de = true ↔ de ∈ [Kde, Lxqt, Razor, Tde]) := by
  cases de <;> exact ⟨by decide, by decide⟩

/-- C10: a successful parse comes from some token: if `from_xdg_current_desktop`
returns `some de`, then some colon-separated token classifies to `de` under
`from_xdg_name`; hence the parser never returns `MacOs` or `Windows`. -/
theorem xdg_result_from_some_token (s : String) (de : DesktopEnvironment)
    (h : from_xdg_current_desktop s = some de) :
    (∃ t ∈ xdgParts s, from_xdg_name t = some de) ∧ de ≠ MacOs ∧ de ≠ Windows := by
  unfold from_xdg_current_desktop at h
  have hmem := fromXdgList_none_mem (xdgParts s) de h
  rcases List.mem_filterMap.mp hmem with ⟨t, ht, hft⟩
  exact ⟨⟨t, ht, hft⟩, from_xdg_name_ne_platform t de hft⟩

/-- Witness for C10 at the concrete input "GNOME". -/
theorem xdg_result_from_some_token_witness :
    (∃ t ∈ xdgParts "GNOME", from_xdg_name t = some Gnome) ∧
    Gnome ≠ MacOs ∧ Gnome ≠ Windows :=
  xdg_result_from_some_token "GNOME" Gnome (by decide)

end DesktopEnvironment

-- sanity checks, mirroring the crate's own tests
example : DesktopEnvironment.from_xdg_current_desktop "KDE:GNOME" = none := by decide
example : DesktopEnvironment.from_xdg_current_desktop "ubuntu:GNOME" =
    some DesktopEnvironment.Gnome := by decide
example : DesktopEnvironment.from_xdg_current_desktop "GNOME:GNOME" =
    some DesktopEnvironment.Gnome := by decide
example : DesktopEnvironment.from_xdg_current_desktop "" = none := by decide
example : DesktopEnvironment.from_xdg_current_desktop "X-Cinnamon" =
    some DesktopEnvironment.Cinnamon := by decide
